import Mathlib

set_option maxRecDepth 10000

/-!
Verification development for the Gemini TTS transport core
(src/gemini.js of the repository).  JavaScript strings are modelled as
lists of Unicode scalar values (List Char), byte buffers as List Nat
(each entry < 256 by construction of the decoders), and the two
exported operations, generateSpeech and generateSpeechStream, as pure
interpreters over an abstract transport script.  Suspension points of
the streaming operation are numbered by a step counter so that
caller-initiated cancellation can be modelled as the step at which the
AbortSignal fires; the signal is observed exactly where the source
observes it (at the start of each fetch, at each body read, and in the
connection-loop catch clause).
-/

namespace GeminiTTS

/-- JavaScript errors as the source distinguishes them: a generic
Error carrying a message, or an AbortError (the DOMException fetch
rejects with when the caller's signal fires). -/
inductive JsError where
  | err (msg : List Char)
  | abortErr
  deriving DecidableEq

/-- Decimal digit character. -/
def digitChar (n : Nat) : Char := Char.ofNat (48 + n)

/-- Decimal representation of a natural number, as characters. -/
def natDigits : Nat → Nat → List Char
  | 0, _ => []
  | fuel + 1, n =>
    if n < 10 then [digitChar n]
    else natDigits fuel (n / 10) ++ [digitChar (n % 10)]

/-- Decimal representation of a natural number (entry point). -/
def natChars (n : Nat) : List Char := natDigits (n + 1) n

/-- Message of the error thrown when no credential is configured
(source line 21 and line 114). -/
def configMsg : List Char := ("GEMINI_API_KEY is not configured").toList

/-- Message of the error thrown for a non-2xx response (source lines
68/72 and 160/163): status code followed by the response body text. -/
def apiErrMsg (status : Nat) (body : List Char) : List Char :=
  ("Gemini API error: ").toList ++ natChars status ++ (" - ").toList ++ body

/-- Message of the error thrown when a 2xx response carries no audio
data (source line 83). -/
def noAudioMsg : List Char := ("No audio data received from Gemini API").toList

/-- Stand-in message for the SyntaxError thrown by response.json() on
an unparsable body. -/
def jsonErrMsg : List Char := ("Unexpected token in JSON").toList

/-- Stand-in message for the TypeError thrown by Buffer.from when the
extracted audio field is a truthy non-string value. -/
def typeErrMsg : List Char := ("argument must be a string").toList

/-- Stand-in for the undefined value the source's uninitialised
lastError variable would hold if thrown. -/
def undefinedMsg : List Char := ("undefined").toList

/-- Whitespace recognised by the ECMAScript String.prototype.trim. -/
def isJsWs (c : Char) : Bool :=
  c = ' ' || c = '\t' || c = '\n' || c = '\r' ||
  c = Char.ofNat 11 || c = Char.ofNat 12 || c = Char.ofNat 0xA0 ||
  c = Char.ofNat 0x1680 ||
  (Char.ofNat 0x2000 ≤ c && c ≤ Char.ofNat 0x200A) ||
  c = Char.ofNat 0x2028 || c = Char.ofNat 0x2029 ||
  c = Char.ofNat 0x202F || c = Char.ofNat 0x205F ||
  c = Char.ofNat 0x3000 || c = Char.ofNat 0xFEFF

/-- Model of JavaScript String.prototype.trim on a list of characters. -/
def jsTrim (cs : List Char) : List Char :=
  ((cs.dropWhile isJsWs).reverse.dropWhile isJsWs).reverse

/-- Value of a base64-alphabet character, if any (Node's base64 decoder
silently drops characters outside the alphabet, including padding). -/
def sextet (c : Char) : Option Nat :=
  if 'A' ≤ c ∧ c ≤ 'Z' then some (c.toNat - 65)
  else if 'a' ≤ c ∧ c ≤ 'z' then some (c.toNat - 97 + 26)
  else if '0' ≤ c ∧ c ≤ '9' then some (c.toNat - 48 + 52)
  else if c = '+' then some 62
  else if c = '/' then some 63
  else none

/-- Decode a list of 6-bit groups into bytes, dropping a dangling
final sextet as Node does. -/
def b64Groups : List Nat → List Nat
  | a :: b :: c :: d :: rest =>
    (a * 4 + b / 16) :: ((b % 16) * 16 + c / 4) :: ((c % 4) * 64 + d) :: b64Groups rest
  | [a, b, c] => [a * 4 + b / 16, (b % 16) * 16 + c / 4]
  | [a, b] => [a * 4 + b / 16]
  | _ => []

/-- Model of Buffer.from(s, base64): forgiving base64 decoding. -/
def b64Decode (cs : List Char) : List Nat := b64Groups (cs.filterMap sextet)

/-- JSON values as produced by JSON.parse.  Numbers keep their lexeme;
object fields keep source order (lookup takes the last binding, as
JSON.parse lets later duplicate keys win). -/
inductive JVal where
  | jnull
  | jbool (b : Bool)
  | jnum (lex : List Char)
  | jstr (s : List Char)
  | jarr (elems : List JVal)
  | jobj (fields : List (List Char × JVal))

/-- JSON grammar whitespace. -/
def jsonWs (c : Char) : Bool := c = ' ' || c = '\t' || c = '\n' || c = '\r'

/-- Skip JSON whitespace. -/
def skipWs (cs : List Char) : List Char := cs.dropWhile jsonWs

/-- Decimal digit test. -/
def isDigit (c : Char) : Bool := '0' ≤ c && c ≤ '9'

/-- Split a leading run of digits. -/
def digitSpan (cs : List Char) : List Char × List Char :=
  (cs.takeWhile isDigit, cs.dropWhile isDigit)

/-- Hexadecimal digit value. -/
def hexDigit (c : Char) : Option Nat :=
  if isDigit c then some (c.toNat - 48)
  else if 'a' ≤ c ∧ c ≤ 'f' then some (c.toNat - 87)
  else if 'A' ≤ c ∧ c ≤ 'F' then some (c.toNat - 55)
  else none

/-- Parse four hex digits. -/
def parseHex4 : List Char → Option (Nat × List Char)
  | a :: b :: c :: d :: r => do
    let x ← hexDigit a
    let y ← hexDigit b
    let z ← hexDigit c
    let w ← hexDigit d
    some (((x * 16 + y) * 16 + z) * 16 + w, r)
  | _ => none

/-- Single-character JSON string escapes. -/
def escChar (c : Char) : Option Char :=
  if c = '"' then some '"'
  else if c = '\\' then some '\\'
  else if c = '/' then some '/'
  else if c = 'b' then some (Char.ofNat 8)
  else if c = 'f' then some (Char.ofNat 12)
  else if c = 'n' then some '\n'
  else if c = 'r' then some '\r'
  else if c = 't' then some '\t'
  else none

/-- Parse the body of a JSON string after the opening quote, up to and
including the closing quote.  Surrogate escape pairs are combined; a
lone surrogate (which a JS string could hold but a Lean Char cannot)
is mapped to U+FFFD. -/
def parseStrBody : Nat → List Char → Option (List Char × List Char)
  | 0, _ => none
  | _, [] => none
  | fuel + 1, c :: rest =>
    if c = '"' then some ([], rest)
    else if c = '\\' then
      match rest with
      | [] => none
      | e :: r2 =>
        if e = 'u' then
          match parseHex4 r2 with
          | none => none
          | some (n, r3) =>
            if 0xD800 ≤ n ∧ n ≤ 0xDBFF then
              match r3 with
              | '\\' :: 'u' :: r4 =>
                match parseHex4 r4 with
                | some (m, r5) =>
                  if 0xDC00 ≤ m ∧ m ≤ 0xDFFF then
                    (parseStrBody fuel r5).map (fun p =>
                      (Char.ofNat (0x10000 + (n - 0xD800) * 0x400 + (m - 0xDC00)) :: p.1, p.2))
                  else (parseStrBody fuel r3).map (fun p => (Char.ofNat 0xFFFD :: p.1, p.2))
                | none => (parseStrBody fuel r3).map (fun p => (Char.ofNat 0xFFFD :: p.1, p.2))
              | _ => (parseStrBody fuel r3).map (fun p => (Char.ofNat 0xFFFD :: p.1, p.2))
            else if 0xDC00 ≤ n ∧ n ≤ 0xDFFF then
              (parseStrBody fuel r3).map (fun p => (Char.ofNat 0xFFFD :: p.1, p.2))
            else (parseStrBody fuel r3).map (fun p => (Char.ofNat n :: p.1, p.2))
        else
          match escChar e with
          | some ch => (parseStrBody fuel r2).map (fun p => (ch :: p.1, p.2))
          | none => none
    else if c.toNat < 0x20 then none
    else (parseStrBody fuel rest).map (fun p => (c :: p.1, p.2))

/-- Parse an optional JSON fraction part. -/
def parseFrac : List Char → Option (List Char × List Char)
  | '.' :: r =>
    let p := digitSpan r
    if p.1 = [] then none else some ('.' :: p.1, p.2)
  | cs => some ([], cs)

/-- Parse an optional JSON exponent part. -/
def parseExp : List Char → Option (List Char × List Char)
  | [] => some ([], [])
  | c :: r =>
    if c = 'e' ∨ c = 'E' then
      let sp := match r with
        | '+' :: rr => (['+'], rr)
        | '-' :: rr => (['-'], rr)
        | _ => (([] : List Char), r)
      let p := digitSpan sp.2
      if p.1 = [] then none else some (c :: sp.1 ++ p.1, p.2)
    else some ([], c :: r)

/-- Parse a JSON number, returning its lexeme. -/
def parseNum (cs : List Char) : Option (List Char × List Char) := do
  let sp := match cs with
    | '-' :: r => ((['-'] : List Char), r)
    | _ => ([], cs)
  let ip ← match sp.2 with
    | '0' :: r => some ((['0'] : List Char), r)
    | c :: _ => if isDigit c then some (digitSpan sp.2) else none
    | [] => none
  let fp ← parseFrac ip.2
  let ep ← parseExp fp.2
  some (sp.1 ++ ip.1 ++ fp.1 ++ ep.1, ep.2)

mutual

/-- Parse one JSON value (fuel-indexed recursive descent). -/
def parseVal : Nat → List Char → Option (JVal × List Char)
  | 0, _ => none
  | fuel + 1, cs =>
    match cs with
    | [] => none
    | '"' :: r => (parseStrBody (r.length + 1) r).map (fun p => (JVal.jstr p.1, p.2))
    | 't' :: 'r' :: 'u' :: 'e' :: r => some (JVal.jbool true, r)
    | 'f' :: 'a' :: 'l' :: 's' :: 'e' :: r => some (JVal.jbool false, r)
    | 'n' :: 'u' :: 'l' :: 'l' :: r => some (JVal.jnull, r)
    | '[' :: r =>
      (match skipWs r with
       | ']' :: r2 => some (JVal.jarr [], r2)
       | cs2 => (parseArrRest fuel cs2).map (fun p => (JVal.jarr p.1, p.2)))
    | '\x7b' :: r =>
      (match skipWs r with
       | '\x7d' :: r2 => some (JVal.jobj [], r2)
       | cs2 => (parseObjRest fuel cs2).map (fun p => (JVal.jobj p.1, p.2)))
    | c :: _ =>
      if c = '-' ∨ isDigit c then (parseNum cs).map (fun p => (JVal.jnum p.1, p.2))
      else none

/-- Parse the non-empty tail of a JSON array (a value is expected). -/
def parseArrRest : Nat → List Char → Option (List JVal × List Char)
  | 0, _ => none
  | fuel + 1, cs => do
    let pv ← parseVal fuel cs
    match skipWs pv.2 with
    | ']' :: r2 => some ([pv.1], r2)
    | ',' :: r2 => do
      let pr ← parseArrRest fuel (skipWs r2)
      some (pv.1 :: pr.1, pr.2)
    | _ => none

/-- Parse the non-empty tail of a JSON object (a key is expected). -/
def parseObjRest : Nat → List Char → Option (List (List Char × JVal) × List Char)
  | 0, _ => none
  | fuel + 1, cs =>
    match cs with
    | '"' :: r => do
      let pk ← parseStrBody (r.length + 1) r
      match skipWs pk.2 with
      | ':' :: r2 => do
        let pv ← parseVal fuel (skipWs r2)
        match skipWs pv.2 with
        | '\x7d' :: r4 => some ([(pk.1, pv.1)], r4)
        | ',' :: r4 => do
          let pr ← parseObjRest fuel (skipWs r4)
          some ((pk.1, pv.1) :: pr.1, pr.2)
        | _ => none
      | _ => none
    | _ => none

end

/-- Model of JSON.parse: parse one value, allowing surrounding
whitespace, and require the whole input to be consumed. -/
def parseJson (cs : List Char) : Option JVal := do
  let cs1 := skipWs cs
  let pv ← parseVal (cs1.length + 1) cs1
  if skipWs pv.2 = [] then some pv.1 else none

/-- Last binding of a key in a JSON object (JSON.parse keeps the last
duplicate). -/
def lookupLast (fields : List (List Char × JVal)) (k : List Char) : Option JVal :=
  ((fields.filter (fun p => p.1 = k)).getLast?).map (fun p => p.2)

/-- Optional-chained field access: o?.[k]. -/
def getField : Option JVal → List Char → Option JVal
  | some (JVal.jobj fs), k => lookupLast fs k
  | _, _ => none

/-- Optional-chained first element access: a?.[0]. -/
def getIndex0 : Option JVal → Option JVal
  | some (JVal.jarr (v :: _)) => some v
  | _ => none

/-- The fixed audio path of the source (lines 79 and 205):
data?.candidates?.[0]?.content?.parts?.[0]?.inlineData?.data. -/
def audioField (v : JVal) : Option JVal :=
  getField (getField (getIndex0 (getField (getField (getIndex0
    (getField (some v) ("candidates").toList))
    ("content").toList) ("parts").toList)) ("inlineData").toList) ("data").toList

/-- Whether a JSON number lexeme denotes zero (falsy in JS). -/
def numIsZero (lex : List Char) : Bool :=
  (lex.takeWhile (fun c => c ≠ 'e' ∧ c ≠ 'E')).all (fun c => !(isDigit c) || c = '0')

/-- JavaScript falsiness of a JSON value. -/
def jsFalsy : JVal → Bool
  | JVal.jnull => true
  | JVal.jbool b => !b
  | JVal.jstr s => s.isEmpty
  | JVal.jnum lex => numIsZero lex
  | _ => false

/-- Outcome of extracting the audio field from a parsed frame:
absent (the optional chain yielded undefined, or a falsy value, so the
if-guard fails), a truthy string (decoded from base64 by Buffer.from),
or a truthy non-string (on which Buffer.from throws). -/
inductive ExtractResult where
  | absent
  | badType
  | audio (bytes : List Nat)
  deriving DecidableEq

/-- Extract the audio payload from a parsed response/frame exactly as
the source's audioData access plus Buffer.from does. -/
def extractAudio (v : JVal) : ExtractResult :=
  match audioField v with
  | none => ExtractResult.absent
  | some w =>
    if jsFalsy w then ExtractResult.absent
    else
      match w with
      | JVal.jstr s => ExtractResult.audio (b64Decode s)
      | _ => ExtractResult.badType

/-! ## Incremental UTF-8 decoding (WHATWG TextDecoder, utf-8, non-fatal) -/

/-- State of the WHATWG streaming UTF-8 decoder, plus the BOM flag
(the default TextDecoder strips one leading U+FEFF). -/
structure Utf8St where
  cp : Nat
  needed : Nat
  seen : Nat
  lower : Nat
  upper : Nat
  first : Bool
  deriving DecidableEq

/-- Initial decoder state. -/
def initUtf8 : Utf8St :=
  { cp := 0, needed := 0, seen := 0, lower := 0x80, upper := 0xBF, first := true }

/-- Emit a finished code point, applying the leading-BOM strip. -/
def emitCp (st : Utf8St) (cp : Nat) : List Char × Utf8St :=
  if st.first ∧ cp = 0xFEFF then ([], { st with first := false })
  else ([Char.ofNat cp], { st with first := false })

/-- Reset the multi-byte bookkeeping of the decoder state. -/
def utf8Reset (st : Utf8St) : Utf8St :=
  { st with cp := 0, needed := 0, seen := 0, lower := 0x80, upper := 0xBF }

/-- Handle one byte in the initial (needed = 0) decoder state. -/
def utf8Start (st : Utf8St) (b : Nat) : List Char × Utf8St :=
  if b ≤ 0x7F then emitCp st b
  else if 0xC2 ≤ b ∧ b ≤ 0xDF then ([], { st with needed := 1, cp := b % 32 })
  else if 0xE0 ≤ b ∧ b ≤ 0xEF then
    ([], { st with
           needed := 2, cp := b % 16,
           lower := if b = 0xE0 then 0xA0 else 0x80,
           upper := if b = 0xED then 0x9F else 0xBF })
  else if 0xF0 ≤ b ∧ b ≤ 0xF4 then
    ([], { st with
           needed := 3, cp := b % 8,
           lower := if b = 0xF0 then 0x90 else 0x80,
           upper := if b = 0xF4 then 0x8F else 0xBF })
  else emitCp st 0xFFFD

/-- Feed one byte to the streaming UTF-8 decoder.  On a continuation
byte outside the expected range the WHATWG algorithm emits U+FFFD and
reprocesses the byte in the initial state. -/
def utf8Byte (st : Utf8St) (b : Nat) : List Char × Utf8St :=
  if st.needed = 0 then utf8Start st b
  else if b < st.lower ∨ st.upper < b then
    let e := emitCp (utf8Reset st) 0xFFFD
    let s := utf8Start e.2 b
    (e.1 ++ s.1, s.2)
  else
    let st1 := { st with
                 cp := st.cp * 64 + b % 64, seen := st.seen + 1,
                 lower := 0x80, upper := 0xBF }
    if st1.seen = st1.needed then emitCp (utf8Reset st1) st1.cp
    else ([], st1)

/-- Flush the decoder at end of stream: an unfinished sequence becomes
one U+FFFD (TextDecoder.decode() with no argument). -/
def utf8Flush (st : Utf8St) : List Char × Utf8St :=
  if st.needed = 0 then ([], st) else emitCp (utf8Reset st) 0xFFFD

/-! ## Generic output-accumulating fold -/

/-- One step of an output-accumulating fold. -/
def accumStep (f : σ → α → List β × σ) (p : List β × σ) (a : α) : List β × σ :=
  ((p.1 ++ (f p.2 a).1), (f p.2 a).2)

/-- Run an output-accumulating fold from an empty output. -/
def runAccum (f : σ → α → List β × σ) (s : σ) (l : List α) : List β × σ :=
  l.foldl (accumStep f) ([], s)

/-- Line-splitting step: a newline completes the pending line, any
other character extends it (String.prototype.split with the last
fragment kept pending). -/
def lineStep (cur : List Char) (c : Char) : List (List Char) × List Char :=
  if c = '\n' then ([cur], []) else ([], cur ++ [c])

/-! ## The streaming frame decoder (processLine and the read loop) -/

/-- The literal frame marker "data: ". -/
def dataMarker : List Char := ("data: ").toList

/-- Whether a line begins with the frame marker (line.startsWith). -/
def startsWithData : List Char → Bool
  | 'd' :: 'a' :: 't' :: 'a' :: ':' :: ' ' :: _ => true
  | _ => false

/-- The logical end-of-data sentinel payload. -/
def doneLit : List Char := ("[DONE]").toList

/-- Classification of one complete SSE line by the source's
processLine: ignored, a JSON/type failure that is debug-logged with a
preview of the payload, or an audio chunk together with that preview
(the preview is what the catch clause would log if the sink throws). -/
inductive LineOut where
  | skip
  | parseFail (preview : List Char)
  | chunk (bytes : List Nat) (preview : List Char)
  deriving DecidableEq

/-- Pure classification of one complete line (source lines 195-216):
lines without the "data: " marker are ignored; the payload is the text
after the marker, trimmed; "[DONE]" is ignored; a payload that does
not parse as JSON is a debug-logged failure; a parsed frame without a
truthy audio string yields nothing (absent) or a debug-logged type
failure; otherwise the base64-decoded chunk. -/
def lineOut (line : List Char) : LineOut :=
  if startsWithData line then
    let jsonStr := jsTrim (line.drop 6)
    if jsonStr = doneLit then LineOut.skip
    else
      match parseJson jsonStr with
      | none => LineOut.parseFail (jsonStr.take 100)
      | some v =>
        match extractAudio v with
        | ExtractResult.absent => LineOut.skip
        | ExtractResult.badType => LineOut.parseFail (jsonStr.take 100)
        | ExtractResult.audio b => LineOut.chunk b (jsonStr.take 100)
  else LineOut.skip

/-- Live decode state of one streaming session: the incremental UTF-8
decoder state, the pending partial line, the cumulative byte counter,
the ordered chunks handed to the sink, and the debug-log records. -/
structure DecodeSt where
  u : Utf8St
  buf : List Char
  totalBytes : Nat
  emitted : List (List Nat)
  logs : List (List Char)
  deriving DecidableEq

/-- Initial decode state. -/
def initDecodeSt : DecodeSt :=
  { u := initUtf8, buf := [], totalBytes := 0, emitted := [], logs := [] }

/-- Effect of processing one complete line (the source's processLine,
with the sink modelled as a predicate telling whether onChunk
resolves).  On a chunk the byte counter is incremented and the chunk
recorded as emitted before the sink is awaited; a sink rejection is
caught by the same catch clause as a parse failure and debug-logged. -/
def processLine (sink : List Nat → Bool) (st : DecodeSt) (line : List Char) : DecodeSt :=
  match lineOut line with
  | LineOut.skip => st
  | LineOut.parseFail p => { st with logs := st.logs ++ [p] }
  | LineOut.chunk b p =>
    let st1 := { st with
                 totalBytes := st.totalBytes + b.length,
                 emitted := st.emitted ++ [b] }
    if sink b then st1 else { st1 with logs := st1.logs ++ [p] }

/-- Process one push of bytes (one reader.read() result, source lines
228-236): decode the bytes, append to the pending line, split on
newlines keeping the last fragment pending, and process each complete
line. -/
def processPush (sink : List Nat → Bool) (st : DecodeSt) (bytes : List Nat) : DecodeSt :=
  let td := runAccum utf8Byte st.u bytes
  let ls := runAccum lineStep st.buf td.1
  ls.1.foldl (processLine sink) { st with u := td.2, buf := ls.2 }

/-- End-of-stream handling (source lines 222-225 and 239-243): flush
the character decoder into the pending line and, if the trimmed result
is non-empty, process it as one final complete line. -/
def finishDecode (sink : List Nat → Bool) (st : DecodeSt) : DecodeSt :=
  let fl := utf8Flush st.u
  let st1 := { st with u := fl.2, buf := st.buf ++ fl.1 }
  if jsTrim st1.buf = [] then st1 else processLine sink st1 (jsTrim st1.buf)

/-- The whole decoder run on a sequence of byte pushes. -/
def runDecoder (sink : List Nat → Bool) (pushes : List (List Nat)) : DecodeSt :=
  finishDecode sink (pushes.foldl (processPush sink) initDecodeSt)

/-! ## generateSpeech (single-shot, source lines 19-106) -/

/-- Outcome of one fetch as the transport script supplies it: the
promise rejects with a network error, or a response with a status and
a body text arrives (response.ok is 200-299). -/
inductive StreamFetch where
  | netErr (msg : List Char)
  | resp (status : Nat) (body : List Char)
  deriving DecidableEq

/-- Result of the single-shot operation. -/
inductive GResult where
  | ok (bytes : List Nat)
  | fail (e : JsError)
  deriving DecidableEq

/-- Observable outcome of one generateSpeech call: the settled result,
the number of attempts that reached the transport, and the backoff
delays slept between attempts, in order. -/
structure GenRes where
  result : GResult
  attempts : Nat
  sleeps : List Nat
  deriving DecidableEq

/-- What one try-block iteration of generateSpeech produces from one
fetch outcome (source lines 54-90): non-2xx throws the API error
(whatever the status, both branches construct the same message); a 2xx
body is parsed as JSON, the audio path extracted, and a missing audio
field throws the no-audio error; a truthy audio string is
base64-decoded and returned. -/
def attemptCompute (o : StreamFetch) : GResult :=
  match o with
  | StreamFetch.netErr m => GResult.fail (JsError.err m)
  | StreamFetch.resp s body =>
    if 200 ≤ s ∧ s < 300 then
      match parseJson body with
      | none => GResult.fail (JsError.err jsonErrMsg)
      | some v =>
        match extractAudio v with
        | ExtractResult.absent => GResult.fail (JsError.err noAudioMsg)
        | ExtractResult.badType => GResult.fail (JsError.err typeErrMsg)
        | ExtractResult.audio b => GResult.ok b
    else GResult.fail (JsError.err (apiErrMsg s body))

/-- The error generateSpeech's catch clause records for a failed
attempt outcome (used to state which error is surfaced at
exhaustion). -/
def attemptError (o : StreamFetch) : JsError :=
  match o with
  | StreamFetch.netErr m => JsError.err m
  | StreamFetch.resp s body => JsError.err (apiErrMsg s body)

/-- The retry loop of generateSpeech (source lines 44-105): rem is the
number of attempts still allowed including the current one, k the
current attempt number.  Every caught error is retried after a linear
backoff of k * 1000 ms while attempts remain; after the last attempt
the last error is thrown. -/
def genSpeechGo (script : Nat → StreamFetch) : Nat → Nat → JsError → GenRes
  | 0, k, lastErr => { result := GResult.fail lastErr, attempts := k - 1, sleeps := [] }
  | rem + 1, k, _ =>
    match attemptCompute (script k) with
    | GResult.ok b => { result := GResult.ok b, attempts := k, sleeps := [] }
    | GResult.fail e =>
      if rem = 0 then { result := GResult.fail e, attempts := k, sleeps := [] }
      else
        let r := genSpeechGo script rem (k + 1) e
        { result := r.result, attempts := r.attempts, sleeps := k * 1000 :: r.sleeps }

/-- Model of generateSpeech(text, voiceName, apiKey, retries): the text
and voice only shape the request payload and log lines, so the model
abstracts the transport as a script from attempt numbers to fetch
outcomes.  A missing (falsy, i.e. empty) credential throws the
configuration error before any attempt. -/
def generateSpeech (apiKey : List Char) (retries : Nat)
    (script : Nat → StreamFetch) : GenRes :=
  if apiKey = [] then { result := GResult.fail (JsError.err configMsg), attempts := 0, sleeps := [] }
  else genSpeechGo script retries 1 (JsError.err undefinedMsg)

/-! ## generateSpeechStream (source lines 112-251) -/

/-- Events of one streaming run, stamped with the step (suspension
point) at which they happen: a fetch reaching the transport, a backoff
sleep, a body read, the final done read, a chunk emission to the sink,
the sink's acknowledgment, and a debug log record. -/
inductive SEvent where
  | attempt (k : Nat)
  | sleepEv (ms : Nat)
  | readEv
  | doneEv
  | emit (b : List Nat)
  | ack (b : List Nat)
  | dbg (p : List Char)
  deriving DecidableEq

/-- Result of the streaming operation (unit on success: the chunks go
to the sink). -/
inductive SResult where
  | ok
  | fail (e : JsError)
  deriving DecidableEq

/-- Result of the connection-establishment retry loop. -/
inductive CResult where
  | ok (next : Nat)
  | fail (e : JsError)
  deriving DecidableEq

/-- Observables of one generateSpeechStream call. -/
structure StreamRes where
  result : SResult
  trace : List (Nat × SEvent)
  readerAcquired : Bool
  readerReleased : Bool
  dst : DecodeSt
  deriving DecidableEq

/-- Whether the caller's AbortSignal has fired by step t. -/
def abortedB : Option Nat → Nat → Bool
  | none, _ => false
  | some T, t => decide (T ≤ t)

/-- Trace events generated by processing one complete line at step t,
and the next step.  A chunk occupies one suspension (the awaited sink
call); the emission happens unconditionally, the acknowledgment only
if the sink resolves, a debug record if it rejects. -/
def lineEvents (sink : List Nat → Bool) (t : Nat) (line : List Char) :
    List (Nat × SEvent) × Nat :=
  match lineOut line with
  | LineOut.skip => ([], t)
  | LineOut.parseFail p => ([(t, SEvent.dbg p)], t)
  | LineOut.chunk b p =>
    ((t, SEvent.emit b) :: (if sink b then [(t, SEvent.ack b)] else [(t, SEvent.dbg p)]), t + 1)

/-- Trace events of a list of complete lines. -/
def linesEvents (sink : List Nat → Bool) (t : Nat) : List (List Char) →
    List (Nat × SEvent) × Nat
  | [] => ([], t)
  | l :: ls =>
    let e1 := lineEvents sink t l
    let e2 := linesEvents sink e1.2 ls
    (e1.1 ++ e2.1, e2.2)

/-- The body-consumption loop of generateSpeechStream (source lines
218-247).  Each reader.read() observes the signal: once the signal has
fired the read rejects with AbortError, the finally clause releases
the reader, and the operation rejects.  A successful read decodes the
push and processes its complete lines; the final done read flushes the
decoder and processes a non-empty trimmed remainder as one last line.
The reader is released on every exit path.  The transport script
delivers its pushes and then end-of-stream: a mid-stream non-abort
transport failure (a read rejecting with a network error, which the
source surfaces through the same finally clause) is outside this
model, so no statement here may quantify over all body-phase
rejections. -/
def bodyGo (sink : List Nat → Bool) (abortAt : Option Nat) :
    List (List Nat) → DecodeSt → Nat → StreamRes
  | pushes, st, t =>
    if abortedB abortAt t then
      { result := SResult.fail JsError.abortErr, trace := [],
        readerAcquired := true, readerReleased := true, dst := st }
    else
      match pushes with
      | [] =>
        let fl := utf8Flush st.u
        let fb := st.buf ++ fl.1
        let ev := if jsTrim fb = [] then (([] : List (Nat × SEvent)), t)
                  else lineEvents sink (t + 1) (jsTrim fb)
        { result := SResult.ok, trace := (t, SEvent.doneEv) :: ev.1,
          readerAcquired := true, readerReleased := true, dst := finishDecode sink st }
      | p :: rest =>
        let td := runAccum utf8Byte st.u p
        let ls := runAccum lineStep st.buf td.1
        let ev := linesEvents sink (t + 1) ls.1
        let r := bodyGo sink abortAt rest (processPush sink st p) ev.2
        { result := r.result, trace := (t, SEvent.readEv) :: (ev.1 ++ r.trace),
          readerAcquired := true, readerReleased := true, dst := r.dst }

/-- The connection-establishment retry loop of generateSpeechStream
(source lines 139-186).  A fetch whose signal has already fired
rejects with AbortError before reaching the transport; the catch
clause rethrows immediately (no retry, no sleep) when the error is the
AbortError or the signal has fired by then; otherwise the attempt's
error is retried after a k * 1000 ms backoff while attempts remain,
and the last error is thrown after the final attempt. -/
def connectGo (script : Nat → StreamFetch) (abortAt : Option Nat) :
    Nat → Nat → Nat → JsError → CResult × List (Nat × SEvent)
  | 0, _, _, lastErr => (CResult.fail lastErr, [])
  | rem + 1, k, t, _ =>
    if abortedB abortAt t then (CResult.fail JsError.abortErr, [])
    else
      match script k with
      | StreamFetch.resp s body =>
        if 200 ≤ s ∧ s < 300 then (CResult.ok (t + 1), [(t, SEvent.attempt k)])
        else
          let e := JsError.err (apiErrMsg s body)
          if abortedB abortAt (t + 1) then (CResult.fail e, [(t, SEvent.attempt k)])
          else if rem = 0 then (CResult.fail e, [(t, SEvent.attempt k)])
          else
            let r := connectGo script abortAt rem (k + 1) (t + 2) e
            (r.1, (t, SEvent.attempt k) :: (t + 1, SEvent.sleepEv (k * 1000)) :: r.2)
      | StreamFetch.netErr m =>
        let e := JsError.err m
        if abortedB abortAt (t + 1) then (CResult.fail e, [(t, SEvent.attempt k)])
        else if rem = 0 then (CResult.fail e, [(t, SEvent.attempt k)])
        else
          let r := connectGo script abortAt rem (k + 1) (t + 2) e
          (r.1, (t, SEvent.attempt k) :: (t + 1, SEvent.sleepEv (k * 1000)) :: r.2)

/-- Model of generateSpeechStream(text, voiceName, apiKey, onChunk,
signal, retries): credential check first, then the connection retry
loop from step 0, then the body loop over the pushes the transport
will deliver.  The reader is acquired only after a successful
connection. -/
def generateSpeechStream (apiKey : List Char) (retries : Nat)
    (script : Nat → StreamFetch) (pushes : List (List Nat))
    (sink : List Nat → Bool) (abortAt : Option Nat) : StreamRes :=
  if apiKey = [] then
    { result := SResult.fail (JsError.err configMsg), trace := [],
      readerAcquired := false, readerReleased := false, dst := initDecodeSt }
  else
    match connectGo script abortAt retries 1 0 (JsError.err undefinedMsg) with
    | (CResult.fail e, tr) =>
      { result := SResult.fail e, trace := tr,
        readerAcquired := false, readerReleased := false, dst := initDecodeSt }
    | (CResult.ok t, tr) =>
      let r := bodyGo sink abortAt pushes initDecodeSt t
      { result := r.result, trace := tr ++ r.trace,
        readerAcquired := true, readerReleased := r.readerReleased, dst := r.dst }

/-! ## Derived notions used in the statements -/

/-- The chunks a trace emits, in order. -/
def traceEmits (tr : List (Nat × SEvent)) : List (List Nat) :=
  tr.filterMap (fun p => match p.2 with
    | SEvent.emit b => some b
    | _ => none)

/-- Back-pressure discipline of a trace: every emission is followed,
before anything else happens, by the sink's acknowledgment of the same
chunk. -/
def emitAckOk : List (Nat × SEvent) → Bool
  | [] => true
  | (_, SEvent.emit b) :: rest =>
    (match rest with
     | (_, SEvent.ack b2) :: _ => decide (b = b2)
     | _ => false) && emitAckOk rest
  | _ :: rest => emitAckOk rest

/-- Events that reach the transport or the stream: attempts, backoff
sleeps, and body reads.  None of these may happen after the signal has
fired. -/
def sensitiveEv : SEvent → Bool
  | SEvent.attempt _ => true
  | SEvent.sleepEv _ => true
  | SEvent.readEv => true
  | SEvent.doneEv => true
  | _ => false

/-- At most one chunk per complete line: the chunk of a line, if any. -/
def chunksOfLines (lines : List (List Char)) : List (List Nat) :=
  lines.filterMap (fun l => match lineOut l with
    | LineOut.chunk b _ => some b
    | _ => none)

/-- The linear backoff schedule the spec prescribes: delays
k * 1000, (k+1) * 1000, ... for j consecutive retries starting at
attempt k. -/
def backoffs : Nat → Nat → List Nat
  | _, 0 => []
  | k, j + 1 => k * 1000 :: backoffs (k + 1) j

/-- A transport outcome the spec classifies as retryable: a network
error or a 5xx status. -/
def serverFailure (o : StreamFetch) : Prop :=
  (∃ m, o = StreamFetch.netErr m) ∨ ∃ s b, o = StreamFetch.resp s b ∧ 500 ≤ s

/-! ## Concrete inputs for witnesses and counterexamples -/

/-- A syntactically valid SSE audio frame carrying base64 "SGVsbG8=". -/
def helloLine : List Char :=
  ("data: \x7b\"candidates\":[\x7b\"content\":\x7b\"parts\":[\x7b\"inlineData\":\x7b\"data\":\"SGVsbG8=\"\x7d\x7d]\x7d\x7d]\x7d").toList

/-- The bytes of "Hello". -/
def helloBytes : List Nat := [72, 101, 108, 108, 111]

/-- The ASCII bytes of the hello frame (no trailing newline). -/
def helloLineBytes : List Nat := helloLine.map Char.toNat

/-- A malformed SSE line whose payload is not JSON. -/
def malformedLine : List Char := ("data: \x7bnot json").toList

/-- A non-empty credential. -/
def keyK : List Char := ("k").toList

/-- A 404 body. -/
def notFound : List Char := ("Not Found").toList

/-- An empty JSON object body (structurally valid, no audio field). -/
def emptyObj : List Char := ("\x7b\x7d").toList

/-- A sink that always resolves. -/
def sinkTrue : List Nat → Bool := fun _ => true

/-- A sink that always rejects. -/
def sinkNever : List Nat → Bool := fun _ => false

/-- The JSON payload of the hello frame, as a response body carrying
audio. -/
def helloBody : List Char := helloLine.drop 6

/-- A transport script failing 503 on attempt 1 and succeeding with
audio from attempt 2 on. -/
def script503Then200 : Nat → StreamFetch := fun i =>
  if i ≤ 1 then StreamFetch.resp 503 [] else StreamFetch.resp 200 helloBody

/-- A transport script that always answers 200 with an empty body
text (the stream body arrives separately as pushes). -/
def script200 : Nat → StreamFetch := fun _ => StreamFetch.resp 200 []

/-! ## Lemmas: the output-accumulating fold composes -/


theorem accum_shift (f : σ → α → List β × σ) :
    ∀ (l : List α) (out : List β) (s : σ),
      List.foldl (accumStep f) (out, s) l =
        (out ++ (runAccum f s l).1, (runAccum f s l).2) := by
  intro l
  induction l with
  | nil => intro out s; simp [runAccum]
  | cons a l ih =>
    intro out s
    simp only [runAccum, List.foldl_cons]
    rw [show accumStep f (out, s) a = (out ++ (f s a).1, (f s a).2) from rfl]
    rw [show accumStep f (([] : List β), s) a = ([] ++ (f s a).1, (f s a).2) from rfl]
    rw [ih, ih]
    simp [List.append_assoc]

theorem runAccum_append (f : σ → α → List β × σ) (s : σ) (a b : List α) :
    runAccum f s (a ++ b) =
      ((runAccum f s a).1 ++ (runAccum f (runAccum f s a).2 b).1,
       (runAccum f (runAccum f s a).2 b).2) := by
  have h1 : runAccum f s (a ++ b) = List.foldl (accumStep f) (runAccum f s a) b := by
    simp [runAccum, List.foldl_append]
  rw [h1]
  rw [show runAccum f s a = ((runAccum f s a).1, (runAccum f s a).2) from rfl]
  rw [accum_shift f b]

theorem processLine_set (sink : List Nat → Bool) (st : DecodeSt) (x : Utf8St)
    (y : List Char) (l : List Char) :
    processLine sink { st with u := x, buf := y } l =
      { processLine sink st l with u := x, buf := y } := by
  unfold processLine
  cases h : lineOut l with
  | skip => rfl
  | parseFail p => rfl
  | chunk b p =>
    simp only
    by_cases hs : sink b <;> simp [hs]

theorem foldl_processLine_set (sink : List Nat → Bool) :
    ∀ (ls : List (List Char)) (st : DecodeSt) (x : Utf8St) (y : List Char),
      ls.foldl (processLine sink) { st with u := x, buf := y } =
        { ls.foldl (processLine sink) st with u := x, buf := y } := by
  intro ls
  induction ls with
  | nil => intro st x y; rfl
  | cons l ls ih =>
    intro st x y
    simp only [List.foldl_cons]
    rw [processLine_set, ih]

theorem processPush_append (sink : List Nat → Bool) (st : DecodeSt) (a b : List Nat) :
    processPush sink st (a ++ b) = processPush sink (processPush sink st a) b := by
  simp only [processPush]
  rw [runAccum_append utf8Byte st.u a b]
  rw [runAccum_append lineStep st.buf]
  rw [List.foldl_append]
  simp only [foldl_processLine_set]

theorem foldl_processPush (sink : List Nat → Bool) :
    ∀ (pushes : List (List Nat)) (st : DecodeSt),
      pushes.foldl (processPush sink) st = processPush sink st pushes.flatten := by
  intro pushes
  induction pushes with
  | nil => intro st; rfl
  | cons p ps ih =>
    intro st
    simp only [List.foldl_cons, List.flatten_cons]
    rw [ih, ← processPush_append]



theorem processLine_emitted (sink : List Nat → Bool) (st : DecodeSt) (l : List Char) :
    (processLine sink st l).emitted = st.emitted ++
      (match lineOut l with
       | LineOut.chunk b _ => [b]
       | _ => []) := by
  unfold processLine
  cases h : lineOut l with
  | skip => simp
  | parseFail p => simp
  | chunk b p => by_cases hs : sink b <;> simp [hs]

theorem foldl_processLine_emitted (sink : List Nat → Bool) :
    ∀ (ls : List (List Char)) (st : DecodeSt),
      (ls.foldl (processLine sink) st).emitted = st.emitted ++ chunksOfLines ls := by
  intro ls
  induction ls with
  | nil => intro st; simp [chunksOfLines]
  | cons l ls ih =>
    intro st
    simp only [List.foldl_cons]
    rw [ih, processLine_emitted]
    cases h : lineOut l <;> simp [chunksOfLines, h]

theorem lineEvents_emits (sink : List Nat → Bool) (t : Nat) (l : List Char) :
    traceEmits (lineEvents sink t l).1 =
      (match lineOut l with
       | LineOut.chunk b _ => [b]
       | _ => []) := by
  unfold lineEvents
  cases h : lineOut l with
  | skip => simp [traceEmits]
  | parseFail p => simp [traceEmits]
  | chunk b p => by_cases hs : sink b <;> simp [hs, traceEmits]

theorem traceEmits_append (a b : List (Nat × SEvent)) :
    traceEmits (a ++ b) = traceEmits a ++ traceEmits b := by
  simp [traceEmits]

theorem linesEvents_emits (sink : List Nat → Bool) :
    ∀ (ls : List (List Char)) (t : Nat),
      traceEmits (linesEvents sink t ls).1 = chunksOfLines ls := by
  intro ls
  induction ls with
  | nil => intro t; simp [linesEvents, traceEmits, chunksOfLines]
  | cons l ls ih =>
    intro t
    simp only [linesEvents]
    rw [traceEmits_append, lineEvents_emits, ih]
    cases h : lineOut l <;> simp [chunksOfLines, h]

theorem bodyGo_reader (sink : List Nat → Bool) (abortAt : Option Nat) :
    ∀ (pushes : List (List Nat)) (st : DecodeSt) (t : Nat),
      (bodyGo sink abortAt pushes st t).readerAcquired = true ∧
      (bodyGo sink abortAt pushes st t).readerReleased = true := by
  intro pushes st t
  cases pushes <;> simp only [bodyGo] <;> split <;> simp

theorem bodyGo_none_ok (sink : List Nat → Bool) :
    ∀ (pushes : List (List Nat)) (st : DecodeSt) (t : Nat),
      (bodyGo sink none pushes st t).result = SResult.ok := by
  intro pushes
  induction pushes with
  | nil => intro st t; simp [bodyGo, abortedB]
  | cons p ps ih => intro st t; simp [bodyGo, abortedB, ih]

theorem bodyGo_aborted (sink : List Nat → Bool) (T : Nat) :
    ∀ (pushes : List (List Nat)) (st : DecodeSt) (t : Nat), T ≤ t →
      bodyGo sink (some T) pushes st t =
        { result := SResult.fail JsError.abortErr, trace := [],
          readerAcquired := true, readerReleased := true, dst := st } := by
  intro pushes st t h
  cases pushes <;> simp [bodyGo, abortedB, h]

theorem bodyGo_none_dst (sink : List Nat → Bool) :
    ∀ (pushes : List (List Nat)) (st : DecodeSt) (t : Nat),
      (bodyGo sink none pushes st t).dst =
        finishDecode sink (pushes.foldl (processPush sink) st) := by
  intro pushes
  induction pushes with
  | nil => intro st t; simp [bodyGo, abortedB]
  | cons p ps ih => intro st t; simp [bodyGo, abortedB, ih]

theorem bodyGo_none_emits (sink : List Nat → Bool) :
    ∀ (pushes : List (List Nat)) (st : DecodeSt) (t : Nat),
      (bodyGo sink none pushes st t).dst.emitted =
        st.emitted ++ traceEmits (bodyGo sink none pushes st t).trace := by
  intro pushes
  induction pushes with
  | nil =>
    intro st t
    simp only [bodyGo, abortedB, if_false, Bool.false_eq_true]
    by_cases h : jsTrim (st.buf ++ (utf8Flush st.u).1) = []
    · simp only [h, if_true]
      simp [finishDecode, h, traceEmits]
    · simp only [h, if_false]
      simp only [traceEmits, List.filterMap_cons]
      simp only [finishDecode, h, if_false]
      rw [processLine_emitted]
      have he := lineEvents_emits sink (t + 1) (jsTrim (st.buf ++ (utf8Flush st.u).1))
      simp only [traceEmits] at he
      rw [he]
  | cons p ps ih =>
    intro st t
    simp only [bodyGo, abortedB, if_false, Bool.false_eq_true]
    rw [ih]
    simp only [traceEmits, List.filterMap_cons, List.filterMap_append]
    have h1 : (processPush sink st p).emitted =
        st.emitted ++ chunksOfLines (runAccum lineStep st.buf (runAccum utf8Byte st.u p).1).1 := by
      simp only [processPush]
      rw [foldl_processLine_emitted]
    rw [h1]
    have h2 := linesEvents_emits sink
      ((runAccum lineStep st.buf (runAccum utf8Byte st.u p).1).1) (t + 1)
    simp only [traceEmits] at h2
    rw [h2]
    simp [List.append_assoc]

theorem emitAckOk_cons_other (x : Nat × SEvent) (l : List (Nat × SEvent))
    (h : ∀ b, x.2 ≠ SEvent.emit b) : emitAckOk (x :: l) = emitAckOk l := by
  obtain ⟨s, e⟩ := x
  cases e with
  | emit b => exact absurd rfl (h b)
  | ack b => rfl
  | dbg p => rfl
  | attempt k => rfl
  | sleepEv ms => rfl
  | readEv => rfl
  | doneEv => rfl

theorem emitAckOk_append :
    ∀ (a b : List (Nat × SEvent)), emitAckOk a = true → emitAckOk b = true →
      emitAckOk (a ++ b) = true := by
  intro a
  induction a with
  | nil => intro b _ hb; exact hb
  | cons x rest ih =>
    intro b ha hb
    obtain ⟨s, e⟩ := x
    cases e with
    | emit c =>
      simp only [emitAckOk, Bool.and_eq_true] at ha
      obtain ⟨hhead, hrest⟩ := ha
      match hr : rest with
      | (s2, SEvent.ack c2) :: rest2 =>
        subst hr
        simp only [List.cons_append]
        simp only [emitAckOk, Bool.and_eq_true]
        refine ⟨?_, ?_⟩
        · simpa using hhead
        · exact ih b hrest hb
      | [] => simp at hhead
      | (s2, SEvent.emit c2) :: rest2 => simp at hhead
      | (s2, SEvent.dbg p) :: rest2 => simp at hhead
      | (s2, SEvent.attempt k) :: rest2 => simp at hhead
      | (s2, SEvent.sleepEv ms) :: rest2 => simp at hhead
      | (s2, SEvent.readEv) :: rest2 => simp at hhead
      | (s2, SEvent.doneEv) :: rest2 => simp at hhead
    | ack c =>
      simp only [emitAckOk] at ha
      simp only [List.cons_append]
      rw [emitAckOk_cons_other _ _ (by intro b2; simp)]
      exact ih b ha hb
    | dbg p =>
      simp only [emitAckOk] at ha
      simp only [List.cons_append]
      rw [emitAckOk_cons_other _ _ (by intro b2; simp)]
      exact ih b ha hb
    | attempt k =>
      simp only [emitAckOk] at ha
      simp only [List.cons_append]
      rw [emitAckOk_cons_other _ _ (by intro b2; simp)]
      exact ih b ha hb
    | sleepEv ms =>
      simp only [emitAckOk] at ha
      simp only [List.cons_append]
      rw [emitAckOk_cons_other _ _ (by intro b2; simp)]
      exact ih b ha hb
    | readEv =>
      simp only [emitAckOk] at ha
      simp only [List.cons_append]
      rw [emitAckOk_cons_other _ _ (by intro b2; simp)]
      exact ih b ha hb
    | doneEv =>
      simp only [emitAckOk] at ha
      simp only [List.cons_append]
      rw [emitAckOk_cons_other _ _ (by intro b2; simp)]
      exact ih b ha hb

theorem lineEvents_ack (sink : List Nat → Bool) (hsink : ∀ b, sink b = true)
    (t : Nat) (l : List Char) : emitAckOk (lineEvents sink t l).1 = true := by
  unfold lineEvents
  cases h : lineOut l with
  | skip => rfl
  | parseFail p => rfl
  | chunk b p => simp [hsink b, emitAckOk]

theorem linesEvents_ack (sink : List Nat → Bool) (hsink : ∀ b, sink b = true) :
    ∀ (ls : List (List Char)) (t : Nat), emitAckOk (linesEvents sink t ls).1 = true := by
  intro ls
  induction ls with
  | nil => intro t; rfl
  | cons l ls ih =>
    intro t
    simp only [linesEvents]
    exact emitAckOk_append _ _ (lineEvents_ack sink hsink t l) (ih _)

theorem bodyGo_ack (sink : List Nat → Bool) (hsink : ∀ b, sink b = true) :
    ∀ (pushes : List (List Nat)) (st : DecodeSt) (t : Nat),
      emitAckOk (bodyGo sink none pushes st t).trace = true := by
  intro pushes
  induction pushes with
  | nil =>
    intro st t
    simp only [bodyGo, abortedB, if_false, Bool.false_eq_true]
    rw [emitAckOk_cons_other _ _ (by intro b2; simp)]
    by_cases h : jsTrim (st.buf ++ (utf8Flush st.u).1) = []
    · simp only [h, if_true]
      rfl
    · simp only [h, if_false]
      exact lineEvents_ack sink hsink _ _
  | cons p ps ih =>
    intro st t
    simp only [bodyGo, abortedB, if_false, Bool.false_eq_true]
    rw [emitAckOk_cons_other _ _ (by intro b2; simp)]
    exact emitAckOk_append _ _ (linesEvents_ack sink hsink _ _) (ih _ _)

theorem lineEvents_not_sensitive (sink : List Nat → Bool) (t : Nat) (l : List Char) :
    ∀ s e, (s, e) ∈ (lineEvents sink t l).1 → sensitiveEv e = false := by
  intro s e hm
  unfold lineEvents at hm
  cases h : lineOut l with
  | skip => simp [h] at hm
  | parseFail p =>
    simp [h] at hm
    rw [hm.2]; rfl
  | chunk b p =>
    simp only [h] at hm
    by_cases hs : sink b <;> simp [hs] at hm <;>
      rcases hm with ⟨_, h2⟩ | ⟨_, h2⟩ <;> rw [h2] <;> rfl

theorem linesEvents_not_sensitive (sink : List Nat → Bool) :
    ∀ (ls : List (List Char)) (t : Nat) s e,
      (s, e) ∈ (linesEvents sink t ls).1 → sensitiveEv e = false := by
  intro ls
  induction ls with
  | nil => intro t s e hm; simp [linesEvents] at hm
  | cons l ls ih =>
    intro t s e hm
    simp only [linesEvents, List.mem_append] at hm
    rcases hm with hm | hm
    · exact lineEvents_not_sensitive sink t l s e hm
    · exact ih _ s e hm

theorem bodyGo_sensitive (sink : List Nat → Bool) (T : Nat) :
    ∀ (pushes : List (List Nat)) (st : DecodeSt) (t : Nat) (s : Nat) (e : SEvent),
      (s, e) ∈ (bodyGo sink (some T) pushes st t).trace → sensitiveEv e = true → s < T := by
  intro pushes
  induction pushes with
  | nil =>
    intro st t s e hm hs
    simp only [bodyGo] at hm
    by_cases hab : abortedB (some T) t = true
    · simp [hab] at hm
    · simp only [hab, if_false, Bool.false_eq_true] at hm
      simp only [List.mem_cons] at hm
      rcases hm with hm | hm
      · obtain ⟨h1, _⟩ := Prod.mk.injEq .. ▸ hm
        have : ¬ T ≤ t := by simpa [abortedB] using hab
        omega
      · have hns := linesEvents_not_sensitive sink
        by_cases h : jsTrim (st.buf ++ (utf8Flush st.u).1) = []
        · simp [h] at hm
        · simp only [h, if_false] at hm
          have := lineEvents_not_sensitive sink (t + 1) _ s e hm
          rw [this] at hs; exact absurd hs (by simp)
  | cons p ps ih =>
    intro st t s e hm hs
    simp only [bodyGo] at hm
    by_cases hab : abortedB (some T) t = true
    · simp [hab] at hm
    · simp only [hab, if_false, Bool.false_eq_true] at hm
      simp only [List.mem_cons, List.mem_append] at hm
      rcases hm with hm | hm | hm
      · obtain ⟨h1, _⟩ := Prod.mk.injEq .. ▸ hm
        have : ¬ T ≤ t := by simpa [abortedB] using hab
        omega
      · have := linesEvents_not_sensitive sink _ _ s e hm
        rw [this] at hs; exact absurd hs (by simp)
      · exact ih _ _ s e hm hs

theorem connectGo_aborted (script : Nat → StreamFetch) (T : Nat) (rem k t : Nat)
    (lastErr : JsError) (h : T ≤ t) :
    connectGo script (some T) (rem + 1) k t lastErr = (CResult.fail JsError.abortErr, []) := by
  simp [connectGo, abortedB, h]

theorem connectGo_sensitive (script : Nat → StreamFetch) (T : Nat) :
    ∀ (rem k t : Nat) (lastErr : JsError) (s : Nat) (e : SEvent),
      (s, e) ∈ (connectGo script (some T) rem k t lastErr).2 → s < T := by
  intro rem
  induction rem with
  | zero => intro k t lastErr s e hm; simp [connectGo] at hm
  | succ rem ih =>
    intro k t lastErr s e hm
    simp only [connectGo] at hm
    by_cases hab : abortedB (some T) t = true
    · simp [hab] at hm
    · have ht : ¬ T ≤ t := by simpa [abortedB] using hab
      simp only [hab, if_false, Bool.false_eq_true] at hm
      cases hscr : script k with
      | resp status body =>
        simp only [hscr] at hm
        by_cases hok : 200 ≤ status ∧ status < 300
        · simp [hok] at hm
          omega
        · simp only [hok, if_false] at hm
          by_cases hab1 : abortedB (some T) (t + 1) = true
          · simp [hab1] at hm; omega
          · have ht1 : ¬ T ≤ t + 1 := by simpa [abortedB] using hab1
            simp only [hab1, if_false, Bool.false_eq_true] at hm
            by_cases hrem : rem = 0
            · simp [hrem] at hm; omega
            · simp only [hrem, if_false] at hm
              simp only [List.mem_cons] at hm
              rcases hm with hm | hm | hm
              · obtain ⟨h1, _⟩ := Prod.mk.injEq .. ▸ hm
                omega
              · obtain ⟨h1, _⟩ := Prod.mk.injEq .. ▸ hm
                omega
              · exact ih (k + 1) (t + 2) _ s e hm
      | netErr m =>
        simp only [hscr] at hm
        by_cases hab1 : abortedB (some T) (t + 1) = true
        · simp [hab1] at hm; omega
        · have ht1 : ¬ T ≤ t + 1 := by simpa [abortedB] using hab1
          simp only [hab1, if_false, Bool.false_eq_true] at hm
          by_cases hrem : rem = 0
          · simp [hrem] at hm; omega
          · simp only [hrem, if_false] at hm
            simp only [List.mem_cons] at hm
            rcases hm with hm | hm | hm
            · obtain ⟨h1, _⟩ := Prod.mk.injEq .. ▸ hm
              omega
            · obtain ⟨h1, _⟩ := Prod.mk.injEq .. ▸ hm
              omega
            · exact ih (k + 1) (t + 2) _ s e hm

theorem connectGo_first_ok (script : Nat → StreamFetch) (rem : Nat) (lastErr : JsError)
    (body : List Char) (h : script 1 = StreamFetch.resp 200 body) :
    connectGo script none (rem + 1) 1 0 lastErr =
      (CResult.ok 1, [(0, SEvent.attempt 1)]) := by
  simp [connectGo, abortedB, h]

theorem attemptCompute_serverFailure (o : StreamFetch) (h : serverFailure o) :
    attemptCompute o = GResult.fail (attemptError o) := by
  rcases h with ⟨m, rfl⟩ | ⟨status, body, rfl, hs⟩
  · rfl
  · have : ¬(200 ≤ status ∧ status < 300) := by omega
    simp [attemptCompute, attemptError, this]

theorem genSpeechGo_success (script : Nat → StreamFetch) (bts : List Nat) :
    ∀ (j k rem : Nat) (lastErr : JsError),
      (∀ i, k ≤ i → i < k + j → serverFailure (script i)) →
      attemptCompute (script (k + j)) = GResult.ok bts →
      j + 1 ≤ rem →
      genSpeechGo script rem k lastErr =
        { result := GResult.ok bts, attempts := k + j, sleeps := backoffs k j } := by
  intro j
  induction j with
  | zero =>
    intro k rem lastErr hfail hsucc hrem
    cases rem with
    | zero => omega
    | succ rem =>
      rw [Nat.add_zero] at hsucc
      simp [genSpeechGo, hsucc, backoffs]
  | succ j ih =>
    intro k rem lastErr hfail hsucc hrem
    cases rem with
    | zero => omega
    | succ rem =>
      have hk : serverFailure (script k) := hfail k le_rfl (by omega)
      have hrem0 : rem ≠ 0 := by omega
      simp only [genSpeechGo]
      rw [attemptCompute_serverFailure _ hk]
      simp only [hrem0, if_false]
      rw [ih (k + 1) rem (attemptError (script k))
        (fun i h1 h2 => hfail i (by omega) (by omega))
        (by rw [show k + 1 + j = k + (j + 1) from by omega]; exact hsucc)
        (by omega)]
      simp only [backoffs]
      rw [show k + 1 + j = k + (j + 1) from by omega]

theorem genSpeechGo_exhaust (script : Nat → StreamFetch) :
    ∀ (j k : Nat) (lastErr : JsError),
      1 ≤ j →
      (∀ i, k ≤ i → i < k + j → serverFailure (script i)) →
      genSpeechGo script j k lastErr =
        { result := GResult.fail (attemptError (script (k + j - 1))),
          attempts := k + j - 1, sleeps := backoffs k (j - 1) } := by
  intro j
  induction j with
  | zero => intro k lastErr h1; omega
  | succ j ih =>
    intro k lastErr _ hfail
    have hk : serverFailure (script k) := hfail k le_rfl (by omega)
    simp only [genSpeechGo]
    rw [attemptCompute_serverFailure _ hk]
    by_cases hj : j = 0
    · subst hj
      simp [backoffs]
    · simp only [hj, if_false]
      rw [ih (k + 1) (attemptError (script k)) (by omega)
        (fun i h1 h2 => hfail i (by omega) (by omega))]
      have h1 : k + 1 + j - 1 = k + (j + 1) - 1 := by omega
      rw [h1]
      simp only [backoffs]
      obtain ⟨j2, rfl⟩ : ∃ j2, j = j2 + 1 := ⟨j - 1, by omega⟩
      simp only [backoffs, Nat.add_sub_cancel]

/-! ## Claim theorems -/

/-- C1 (code bug evidence): the source intends not to retry 4xx client
errors — its own comment on line 70 says so and the spec demands it —
but the 4xx throw on line 72 (and 163) lands in the same catch clause
as the retryable errors, so a transport answering 404 on every attempt
is retried the full 3 times with 1s and 2s backoffs, in both the
single-shot and the streaming operation, instead of failing after
exactly 1 attempt with no backoff. -/
theorem c1_4xx_is_retried :
    generateSpeech keyK 3 (fun _ => StreamFetch.resp 404 notFound) =
      { result := GResult.fail (JsError.err (apiErrMsg 404 notFound)),
        attempts := 3, sleeps := [1000, 2000] }
    ∧ (generateSpeechStream keyK 3 (fun _ => StreamFetch.resp 404 notFound) [] sinkTrue none).trace =
        [(0, SEvent.attempt 1), (1, SEvent.sleepEv 1000), (2, SEvent.attempt 2),
         (3, SEvent.sleepEv 2000), (4, SEvent.attempt 3)]
    ∧ (generateSpeechStream keyK 3 (fun _ => StreamFetch.resp 404 notFound) [] sinkTrue none).result =
        SResult.fail (JsError.err (apiErrMsg 404 notFound)) := by
  refine ⟨by decide, by decide, by decide⟩

/-- C2: chunking invariance of the streaming decoder — feeding the
same event-stream body split at arbitrary byte offsets (including
inside a multi-byte UTF-8 character, inside the frame marker, or
inside a base64 payload) produces exactly the same decode state as one
single push: the same ordered chunk sequence, byte counter, pending
buffers and logs, so no chunk is lost, duplicated, or corrupted by
replacement characters at a split point. -/
theorem c2_chunking_invariance (sink : List Nat → Bool) (pushes : List (List Nat)) :
    runDecoder sink pushes = runDecoder sink [pushes.flatten] := by
  unfold runDecoder
  rw [foldl_processPush]
  rfl

/-- C4 (code bug evidence): a 2xx response whose parsed body lacks the
audio field throws the no-audio error, but that throw (source line 83)
is inside the same try block as the transport call, so the catch
clause retries it: with the default 3 retries the operation performs 3
attempts with 1s and 2s backoffs before surfacing the missing-audio
error, instead of failing without any further attempt as the spec
states. -/
theorem c4_missing_audio_is_retried :
    generateSpeech keyK 3 (fun _ => StreamFetch.resp 200 emptyObj) =
      { result := GResult.fail (JsError.err noAudioMsg),
        attempts := 3, sleeps := [1000, 2000] } := by
  decide

/-- C9: a missing (falsy, i.e. empty) credential makes both operations
fail with the configuration error before any network I/O: zero
attempts, an empty event trace, no reader acquired, and no retry. -/
theorem c9_config_error :
    (∀ (retries : Nat) (script : Nat → StreamFetch),
      generateSpeech [] retries script =
        { result := GResult.fail (JsError.err configMsg), attempts := 0, sleeps := [] })
    ∧ ∀ (retries : Nat) (script : Nat → StreamFetch) (pushes : List (List Nat))
        (sink : List Nat → Bool) (abortAt : Option Nat),
      generateSpeechStream [] retries script pushes sink abortAt =
        { result := SResult.fail (JsError.err configMsg), trace := [],
          readerAcquired := false, readerReleased := false, dst := initDecodeSt } := by
  exact ⟨fun _ _ => rfl, fun _ _ _ _ _ => rfl⟩

/-- C5: at end-of-stream the decoder flushes the character decoder's
remainder into the pending partial line and, when the trimmed result
is non-empty, processes it as one final complete line (first
conjunct, stated for any run whose final decoder state has no pending
partial character and a trim-stable non-empty pending line); hence a
stream whose last frame is a valid data: line with no trailing
newline, carrying base64 SGVsbG8=, still emits the bytes of Hello
(second conjunct). -/
theorem c5_eos_flush :
    (∀ (sink : List Nat → Bool) (pushes : List (List Nat)),
       (pushes.foldl (processPush sink) initDecodeSt).u.needed = 0 →
       jsTrim (pushes.foldl (processPush sink) initDecodeSt).buf =
         (pushes.foldl (processPush sink) initDecodeSt).buf →
       (pushes.foldl (processPush sink) initDecodeSt).buf ≠ [] →
       runDecoder sink pushes =
         processLine sink (pushes.foldl (processPush sink) initDecodeSt)
           (pushes.foldl (processPush sink) initDecodeSt).buf)
    ∧ (runDecoder sinkTrue [helloLineBytes]).emitted = [helloBytes] := by
  constructor
  · intro sink pushes h0 htrim hne
    unfold runDecoder finishDecode
    generalize pushes.foldl (processPush sink) initDecodeSt = st at h0 htrim hne ⊢
    have hf : utf8Flush st.u = ([], st.u) := by simp [utf8Flush, h0]
    rw [hf]
    simp [htrim, hne]
  · decide

/-- C5 witness: the end-of-stream flush equation applied to the
concrete helloLineBytes stream. -/
theorem c5_eos_flush_witness :
    runDecoder sinkTrue [helloLineBytes] =
      processLine sinkTrue ([helloLineBytes].foldl (processPush sinkTrue) initDecodeSt)
        ([helloLineBytes].foldl (processPush sinkTrue) initDecodeSt).buf :=
  c5_eos_flush.1 sinkTrue [helloLineBytes] (by decide) (by decide) (by decide)

/-- C6: per-line behaviour of the streaming decoder — a line that does
not begin with "data: " (in particular an empty line) changes nothing;
a payload equal to the "[DONE]" sentinel changes nothing; a payload
that is not the sentinel and fails to parse as JSON appends exactly
one debug-log record with a 100-character preview and nothing else, so
the session continues; a parsed frame whose audio extraction is absent
changes nothing (non-fatal, no chunk); and concretely a malformed line
followed by a valid line still yields exactly the valid line's
chunk. -/
theorem c6_line_handling :
    (∀ (sink : List Nat → Bool) (st : DecodeSt) (line : List Char),
       startsWithData line = false → processLine sink st line = st)
    ∧ (∀ (sink : List Nat → Bool) (st : DecodeSt) (line : List Char),
        startsWithData line = true → jsTrim (line.drop 6) = doneLit →
        processLine sink st line = st)
    ∧ (∀ (sink : List Nat → Bool) (st : DecodeSt) (line : List Char),
        startsWithData line = true → jsTrim (line.drop 6) ≠ doneLit →
        (parseJson (jsTrim (line.drop 6))).isNone = true →
        processLine sink st line =
          { st with logs := st.logs ++ [(jsTrim (line.drop 6)).take 100] })
    ∧ (∀ (sink : List Nat → Bool) (st : DecodeSt) (line : List Char),
        startsWithData line = true →
        (parseJson (jsTrim (line.drop 6))).map extractAudio = some ExtractResult.absent →
        processLine sink st line = st)
    ∧ (List.foldl (processLine sinkTrue) initDecodeSt [malformedLine, helloLine]).emitted
        = [helloBytes] := by
  refine ⟨?_, ?_, ?_, ?_, by decide⟩
  · intro sink st line h
    simp [processLine, lineOut, h]
  · intro sink st line h1 h2
    simp [processLine, lineOut, h1, h2]
  · intro sink st line h1 h2 h3
    have hn : parseJson (jsTrim (line.drop 6)) = none := Option.isNone_iff_eq_none.mp h3
    simp [processLine, lineOut, h1, h2, hn]
  · intro sink st line h1 h2
    rcases Option.map_eq_some'.mp h2 with ⟨v, hv, he⟩
    by_cases hd : jsTrim (line.drop 6) = doneLit
    · exfalso
      rw [hd] at hv
      have hnone : (parseJson doneLit).isNone = true := by decide
      rw [hv] at hnone
      simp at hnone
    · simp [processLine, lineOut, h1, hd, hv, he]

/-- C6 witness: each per-line behaviour at a concrete line. -/
theorem c6_line_handling_witness :
    processLine sinkTrue initDecodeSt (("ping").toList) = initDecodeSt
    ∧ processLine sinkTrue initDecodeSt (("data: [DONE]").toList) = initDecodeSt
    ∧ processLine sinkTrue initDecodeSt malformedLine =
        { initDecodeSt with
          logs := initDecodeSt.logs ++ [(jsTrim (malformedLine.drop 6)).take 100] }
    ∧ processLine sinkTrue initDecodeSt (("data: \x7b\x7d").toList) = initDecodeSt :=
  ⟨c6_line_handling.1 sinkTrue initDecodeSt _ (by decide),
   c6_line_handling.2.1 sinkTrue initDecodeSt _ (by decide) (by decide),
   c6_line_handling.2.2.1 sinkTrue initDecodeSt _ (by decide) (by decide) (by decide),
   c6_line_handling.2.2.2.1 sinkTrue initDecodeSt _ (by decide) (by decide)⟩

/-- C10: when the caller-supplied sink rejects while a chunk is
delivered, the per-line catch clause absorbs it: the byte counter
keeps the increment, the chunk stays recorded as emitted, exactly one
debug-log record (the same preview a parse failure would log) is
appended, and the state is otherwise unchanged — and the body loop's
result is ok for every sink whatsoever, so the sink's failure is never
surfaced to the caller and subsequent frames are still processed. -/
theorem c10_sink_failure :
    (∀ (sink : List Nat → Bool) (st : DecodeSt) (line : List Char)
        (b : List Nat) (p : List Char),
       lineOut line = LineOut.chunk b p → sink b = false →
       processLine sink st line =
         { st with
           totalBytes := st.totalBytes + b.length,
           emitted := st.emitted ++ [b], logs := st.logs ++ [p] })
    ∧ ∀ (sink : List Nat → Bool) (pushes : List (List Nat)) (st : DecodeSt) (t : Nat),
        (bodyGo sink none pushes st t).result = SResult.ok := by
  refine ⟨?_, fun sink pushes st t => bodyGo_none_ok sink pushes st t⟩
  intro sink st line b p hl hs
  simp [processLine, hl, hs]

/-- C10 witness: a rejecting sink on the concrete hello frame. -/
theorem c10_sink_failure_witness :
    processLine sinkNever initDecodeSt helloLine =
      { initDecodeSt with
        totalBytes := initDecodeSt.totalBytes + helloBytes.length,
        emitted := initDecodeSt.emitted ++ [helloBytes],
        logs := initDecodeSt.logs ++ [helloLine.drop 6] } :=
  c10_sink_failure.1 sinkNever initDecodeSt helloLine helloBytes (helloLine.drop 6)
    (by decide) (by decide)

/-- C7: when attempts 1..k-1 of the single-shot operation fail with a
5xx status or a network-transport error and attempt k succeeds with a
2xx carrying audio (k within the attempt budget), the operation
succeeds after exactly k attempts with the backoff delays
1000, 2000, ..., (k-1)*1000 slept between attempts in order; and when
every attempt fails with a 5xx/transport error, the operation fails
after exactly maxAttempts attempts, surfacing the final attempt's
error. -/
theorem c7_retry_backoff :
    (∀ (apiKey : List Char) (retries k : Nat) (script : Nat → StreamFetch) (bts : List Nat),
       apiKey ≠ [] → 1 ≤ k → k ≤ retries →
       (∀ i, 1 ≤ i → i < k → serverFailure (script i)) →
       attemptCompute (script k) = GResult.ok bts →
       generateSpeech apiKey retries script =
         { result := GResult.ok bts, attempts := k, sleeps := backoffs 1 (k - 1) })
    ∧ ∀ (apiKey : List Char) (retries : Nat) (script : Nat → StreamFetch),
        apiKey ≠ [] → 1 ≤ retries →
        (∀ i, 1 ≤ i → i ≤ retries → serverFailure (script i)) →
        generateSpeech apiKey retries script =
          { result := GResult.fail (attemptError (script retries)),
            attempts := retries, sleeps := backoffs 1 (retries - 1) } := by
  constructor
  · intro apiKey retries k script bts hkey hk1 hkr hfail hsucc
    unfold generateSpeech
    rw [if_neg hkey]
    have e1 : 1 + (k - 1) = k := by omega
    rw [genSpeechGo_success script bts (k - 1) 1 retries (JsError.err undefinedMsg)
      (fun i hi1 hi2 => hfail i hi1 (by omega))
      (by rw [e1]; exact hsucc) (by omega)]
    rw [e1]
  · intro apiKey retries script hkey hr hfail
    unfold generateSpeech
    rw [if_neg hkey]
    rw [genSpeechGo_exhaust script retries 1 (JsError.err undefinedMsg) hr
      (fun i hi1 hi2 => hfail i hi1 (by omega))]
    have e1 : 1 + retries - 1 = retries := by omega
    rw [e1]

/-- C7 witness: 503 on attempt 1, success on attempt 2, within a
budget of 3. -/
theorem c7_retry_backoff_witness :
    generateSpeech keyK 3 script503Then200 =
      { result := GResult.ok helloBytes, attempts := 2, sleeps := backoffs 1 1 } :=
  c7_retry_backoff.1 keyK 3 2 script503Then200 helloBytes (by decide) (by decide) (by decide)
    (fun i h1 h2 => by
      have hi : i = 1 := by omega
      subst hi
      exact Or.inr ⟨503, [], rfl, by omega⟩)
    (by decide)

/-- C8: chunks are delivered to the sink in exactly the decode order
of the received bytes — the emitted sequence of a streaming run equals
the pure decoder's emitted sequence on the same pushes (no reorder, no
coalescing); each complete line contributes at most one chunk; and
with a resolving sink every emission is acknowledged before anything
further happens in the trace (back-pressure: no read overlaps an
outstanding delivery). -/
theorem c8_ordering_backpressure :
    (∀ (apiKey : List Char) (retries : Nat) (script : Nat → StreamFetch)
        (pushes : List (List Nat)) (sink : List Nat → Bool) (body : List Char),
       apiKey ≠ [] → 1 ≤ retries → script 1 = StreamFetch.resp 200 body →
       (∀ b, sink b = true) →
       emitAckOk (generateSpeechStream apiKey retries script pushes sink none).trace = true)
    ∧ (∀ (apiKey : List Char) (retries : Nat) (script : Nat → StreamFetch)
        (pushes : List (List Nat)) (sink : List Nat → Bool) (body : List Char),
       apiKey ≠ [] → 1 ≤ retries → script 1 = StreamFetch.resp 200 body →
       traceEmits (generateSpeechStream apiKey retries script pushes sink none).trace =
         (runDecoder sink pushes).emitted)
    ∧ ∀ (sink : List Nat → Bool) (st : DecodeSt) (line : List Char),
        ((processLine sink st line).emitted).length ≤ st.emitted.length + 1 := by
  refine ⟨?_, ?_, ?_⟩
  · intro apiKey retries script pushes sink body hkey hr hscript hsink
    obtain ⟨r, rfl⟩ : ∃ r, retries = r + 1 := ⟨retries - 1, by omega⟩
    simp only [generateSpeechStream, if_neg hkey,
      connectGo_first_ok script r (JsError.err undefinedMsg) body hscript]
    rw [List.singleton_append]
    rw [emitAckOk_cons_other _ _ (by intro b2; simp)]
    exact bodyGo_ack sink hsink pushes initDecodeSt 1
  · intro apiKey retries script pushes sink body hkey hr hscript
    obtain ⟨r, rfl⟩ : ∃ r, retries = r + 1 := ⟨retries - 1, by omega⟩
    simp only [generateSpeechStream, if_neg hkey,
      connectGo_first_ok script r (JsError.err undefinedMsg) body hscript]
    rw [List.singleton_append]
    have h1 := bodyGo_none_emits sink pushes initDecodeSt 1
    have h2 := bodyGo_none_dst sink pushes initDecodeSt 1
    rw [h2] at h1
    simp only [traceEmits, List.filterMap_cons]
    rw [show (initDecodeSt.emitted : List (List Nat)) = [] from rfl] at h1
    rw [List.nil_append] at h1
    simp only [traceEmits] at h1
    exact h1.symm
  · intro sink st line
    unfold processLine
    cases h : lineOut line with
    | skip => simp
    | parseFail p => simp
    | chunk b p => by_cases hs : sink b <;> simp [hs]

/-- C8 witness: a first-try connection streaming one hello push with a
resolving sink. -/
theorem c8_ordering_backpressure_witness :
    emitAckOk (generateSpeechStream keyK 1 script200 [helloLineBytes] sinkTrue none).trace = true
    ∧ traceEmits (generateSpeechStream keyK 1 script200 [helloLineBytes] sinkTrue none).trace =
        (runDecoder sinkTrue [helloLineBytes]).emitted :=
  ⟨c8_ordering_backpressure.1 keyK 1 script200 [helloLineBytes] sinkTrue []
      (by decide) (by decide) rfl (fun _ => rfl),
   c8_ordering_backpressure.2.1 keyK 1 script200 [helloLineBytes] sinkTrue []
      (by decide) (by decide) rfl⟩

/-- C3 counterexample: the claim that once cancellation is triggered
no further chunk is emitted and the operation rejects with a
cancellation-specific error is false on the code.  In this run the
body is one push holding a complete frame with no trailing newline;
the signal fires at step 3, after the final done read (step 2)
resolved but before the end-of-stream flush delivers its chunk.  The
source never consults the signal after the read loop ends, so the
flush still emits the Hello chunk at step 3 — with the cancellation
already in effect — and the operation resolves successfully instead of
rejecting with the AbortError. -/
theorem c3_cancel_counterexample :
    (generateSpeechStream keyK 3 script200 [helloLineBytes] sinkTrue (some 3)).result =
      SResult.ok
    ∧ (3, SEvent.emit helloBytes) ∈
        (generateSpeechStream keyK 3 script200 [helloLineBytes] sinkTrue (some 3)).trace := by
  refine ⟨by decide, by decide⟩

/-- C3 amended: the cancellation guarantees the code actually gives.
Once the signal fires (at step T): (1) no event that reaches the
transport or the stream — an attempt, a backoff sleep, a body read or
the done read — occurs at any step at or after T (chunks already
decoded from earlier reads, including the end-of-stream flush, may
still be emitted, and a cancellation arriving after the final read is
not observed at all, so the run may still resolve successfully);
(2) the reader is released exactly when it was acquired, on every exit
path; (3) a connection loop entered at an aborted step rejects
immediately with the cancellation-specific AbortError — an error
constructor distinct from every other failure — making no attempt and
no sleep; (4) a body read at an aborted step rejects immediately with
that same AbortError, emitting nothing further and releasing the
reader with the decode state unchanged. -/
theorem c3_cancel_amended :
    (∀ (apiKey : List Char) (retries : Nat) (script : Nat → StreamFetch)
        (pushes : List (List Nat)) (sink : List Nat → Bool) (T s : Nat) (e : SEvent),
       (s, e) ∈ (generateSpeechStream apiKey retries script pushes sink (some T)).trace →
       sensitiveEv e = true → s < T)
    ∧ (∀ (apiKey : List Char) (retries : Nat) (script : Nat → StreamFetch)
        (pushes : List (List Nat)) (sink : List Nat → Bool) (abortAt : Option Nat),
       (generateSpeechStream apiKey retries script pushes sink abortAt).readerReleased =
         (generateSpeechStream apiKey retries script pushes sink abortAt).readerAcquired)
    ∧ (∀ (script : Nat → StreamFetch) (T rem k t : Nat) (lastErr : JsError), T ≤ t →
        connectGo script (some T) (rem + 1) k t lastErr = (CResult.fail JsError.abortErr, []))
    ∧ ∀ (sink : List Nat → Bool) (T : Nat) (pushes : List (List Nat))
        (st : DecodeSt) (t : Nat), T ≤ t →
        bodyGo sink (some T) pushes st t =
          { result := SResult.fail JsError.abortErr, trace := [],
            readerAcquired := true, readerReleased := true, dst := st } := by
  refine ⟨?_, ?_, ?_, ?_⟩
  · intro apiKey retries script pushes sink T s e hm hs
    unfold generateSpeechStream at hm
    by_cases hk : apiKey = []
    · rw [if_pos hk] at hm
      simp at hm
    · rw [if_neg hk] at hm
      rcases hcg : connectGo script (some T) retries 1 0 (JsError.err undefinedMsg) with ⟨cr, tr⟩
      rw [hcg] at hm
      cases cr with
      | fail e2 =>
        exact connectGo_sensitive script T retries 1 0 _ s e (by rw [hcg]; exact hm)
      | ok t =>
        simp only [List.mem_append] at hm
        rcases hm with hm | hm
        · exact connectGo_sensitive script T retries 1 0 _ s e (by rw [hcg]; exact hm)
        · exact bodyGo_sensitive sink T pushes initDecodeSt t s e hm hs
  · intro apiKey retries script pushes sink abortAt
    unfold generateSpeechStream
    by_cases hk : apiKey = []
    · rw [if_pos hk]
    · rw [if_neg hk]
      rcases hcg : connectGo script abortAt retries 1 0 (JsError.err undefinedMsg) with ⟨cr, tr⟩
      cases cr with
      | fail e2 => rfl
      | ok t =>
        simp only
        exact (bodyGo_reader sink abortAt pushes initDecodeSt t).2
  · intro script T rem k t lastErr h
    exact connectGo_aborted script T rem k t lastErr h
  · intro sink T pushes st t h
    exact bodyGo_aborted sink T pushes st t h

/-- C3 amended witness: a cancellation already in effect at entry
short-circuits both the connection loop and the body loop to the
AbortError. -/
theorem c3_cancel_amended_witness :
    connectGo script200 (some 0) (2 + 1) 1 0 (JsError.err undefinedMsg) =
      (CResult.fail JsError.abortErr, [])
    ∧ bodyGo sinkTrue (some 0) [helloLineBytes] initDecodeSt 0 =
        { result := SResult.fail JsError.abortErr, trace := [],
          readerAcquired := true, readerReleased := true, dst := initDecodeSt } :=
  ⟨c3_cancel_amended.2.2.1 script200 0 2 1 0 (JsError.err undefinedMsg) (by decide),
   c3_cancel_amended.2.2.2 sinkTrue 0 [helloLineBytes] initDecodeSt 0 (by decide)⟩

end GeminiTTS
